import Mathlib

/-!
Verification development for the YGG CouchPotato provider (src/ygg/ygg.py).

The provider is a single Python class.  Its own logic (URL derivation,
query building, per-page result extraction, pagination, session check,
detail enrichment, bundle filter) is embedded shallowly below.  External
collaborators — the HTTP transport (`getHTMLData`), the HTML parser
(BeautifulSoup), and the CouchPotato helpers `parseSize`, `getImdb`,
`simplifyString`, `tryUrlencode`'s percent-quoting and `strptime` — are
supplied through an `Env` record of functions; everything written by the
plugin itself is translated statement by statement.

Conventions of the embedding:
* A fetched search page is modelled by the query results the code asks
  BeautifulSoup for: the anchors (with href) inside the `class='results'`
  container together with the texts of the `td` cells of each anchor's
  enclosing row, and the pagination `li` items (each item carrying the
  text of its first `a` descendant, or none when it has no `a`).
* Python exceptions are modelled with `Except PyErr`; the catch-all of
  `_searchOnTitle` is the outer `match` of `searchOnTitle`.
* Machine text is `String` / `List Char`; Python ints are `Int`.
* The regular expressions of the source are small and fixed, and are
  translated to the string predicates they denote:
  `^(https://[^/\s]+)/?`, `/filmvidéo/(film|animation|documentaire)/`,
  `/(\d+)-[^/\s]+$`, and the anchor filter `^` + torrent url (whose text
  is treated literally, as intended by the code).  `\d` and `\s` are read
  as ASCII digits and whitespace.
* Python's unbounded recursion is given a fuel parameter; exhausted fuel
  is the `RecursionError` Python would eventually raise at that depth.
-/

set_option autoImplicit false

/-! ## Concrete instances used by witnesses and counterexamples -/

/-- Python exception classes that the plugin's code paths can raise. -/
inductive PyErr where
  | attributeError
  | indexError
  | valueError
  | recursionError
  | other
deriving DecidableEq

/-- ASCII whitespace, the characters Python's `str.strip` and `int()`
discard at both ends. -/
def pyIsSpace (c : Char) : Bool :=
  c = ' ' || c = '\t' || c = '\n' || c = '\r' || c = '\x0b' || c = '\x0c'

/-- ASCII decimal digit, the reading of `\d` used by the source's regexes. -/
def isDigitC (c : Char) : Bool :=
  '0' ≤ c && c ≤ '9'

/-- Value of a string of decimal digits. -/
def digitsToNat (l : List Char) : Nat :=
  l.foldl (fun n c => 10 * n + (c.toNat - 48)) 0

/-- Drop whitespace at both ends of a character list. -/
def stripChars (s : List Char) : List Char :=
  ((s.dropWhile pyIsSpace).reverse.dropWhile pyIsSpace).reverse

/-- `YGG.parseText`: `node.getText().strip()` applied to an already
extracted text; the node's `getText` output is the embedded string. -/
def pyStrip (s : String) : String :=
  String.mk (stripChars s.data)

/-- Python `int(string)`: optional surrounding whitespace, an optional
sign, then a nonempty run of digits; anything else raises (here: none). -/
def pyIntParse (s : List Char) : Option Int :=
  match stripChars s with
  | [] => none
  | c :: ds =>
    if c = '-' then
      if !ds.isEmpty && ds.all isDigitC then some (-(digitsToNat ds : Int)) else none
    else if c = '+' then
      if !ds.isEmpty && ds.all isDigitC then some ((digitsToNat ds : Int)) else none
    else
      if (c :: ds).all isDigitC then some ((digitsToNat (c :: ds) : Int)) else none

/-- CouchPotato helper `tryInt`: `int(x)`, falling back to `0` when the
conversion raises. -/
def tryInt (s : String) : Int :=
  (pyIntParse s.data).getD 0

/-- Substring test: `re.search` of a fixed literal pattern. -/
def hasSubstr (pat : List Char) : List Char → Bool
  | [] => pat.isPrefixOf []
  | c :: cs => pat.isPrefixOf (c :: cs) || hasSubstr pat cs

/-- `re.search` of an `^`-anchored literal pattern: a prefix test. -/
def startsWithStr (p s : String) : Bool :=
  p.data.isPrefixOf s.data

/-- Python `str.format` with one positional argument: the first
two-character brace pair of the template is replaced by the argument. -/
def fmtAux (arg : List Char) : List Char → List Char
  | [] => []
  | c :: rest =>
    if c = '\x7b' then
      match rest with
      | d :: rest2 => if d = '\x7d' then arg ++ rest2 else c :: fmtAux arg rest
      | [] => [c]
    else c :: fmtAux arg rest

/-- `tmpl.format(arg)` for the single-placeholder templates of the code. -/
def pyFormat (tmpl arg : String) : String :=
  String.mk (fmtAux arg.data tmpl.data)

/-- `re.search(YGG.url_regexp, s)` with `url_regexp = ^(https://[^/\s]+)/?`:
the match exists iff `s` starts with `https://` followed by at least one
character that is neither `/` nor whitespace; `group(1)` is `https://`
plus the maximal such run. -/
def urlRegexpSearch (s : String) : Option String :=
  if ("https://".data).isPrefixOf s.data then
    let host := (s.data.drop 8).takeWhile (fun c => !(c = '/') && !(pyIsSpace c))
    if host.isEmpty then none else some (String.mk ("https://".data ++ host))
  else none

/-- The four search-related entries of `YGG.urls`, each possibly `None`. -/
structure Urls where
  login_check : Option String
  search : Option String
  torrent : Option String
  url : Option String
deriving DecidableEq

/-- `YGG.refreshUrls`: derive the four endpoints from the configured url,
or unset all of them when the url does not match `url_regexp`.
(The braces of the Python templates are written `\x7b\x7d`.) -/
def refreshUrls (conf_url : String) : Urls :=
  match urlRegexpSearch conf_url with
  | some url =>
    { login_check := some (url ++ "/user/account")
      search := some (url ++ "/engine/search?\x7b\x7d")
      torrent := some (url ++ "/torrent")
      url := some (url ++ "/engine/download_torrent?id=\x7b\x7d") }
  | none =>
    { login_check := none, search := none, torrent := none, url := none }

/-- An anchor of the results container as the code consumes it: its
`href`, its `getText()` and the `getText()` of each `td` of
`link.parent.parent`. -/
structure Anchor where
  href : String
  text : String
  rowTds : List String
deriving DecidableEq

/-- A parsed search page, restricted to the queries `_searchOnTitle`
makes: the anchors inside the first `class='results'` element (none when
that element is absent) and the `li` items of the first
`ul class='pagination'` element, each with the text of its first `a`
descendant (none for an `li` without an `a`). -/
structure Page where
  resultList : Option (List Anchor)
  pagination : Option (List (Option String))
deriving DecidableEq

/-- A parsed detail page, restricted to the queries `getMoreInfo` makes.
`descHeader`: none when no `class='description-header'` element exists;
`some d` when it exists, with `d` the prettified first following `div`
(none when no `div` follows).  `uploadeLe`: none when no text node equals
`Uploadé le`; `some t` when one does, with `t` the text of the first
following `td` (none when no `td` follows). -/
structure DetailPage where
  descHeader : Option (Option String)
  uploadeLe : Option (Option String)
deriving DecidableEq

/-- The result dict built by `_searchOnTitle`; `description` and `age`
are added later by `getMoreInfo`.  The two bound-method entries
`get_more_info` / `extra_check` carry no data and are not modelled. -/
structure SearchResult where
  id : Int
  name : String
  seeders : Int
  leechers : Int
  size : Int
  url : String
  detail_url : String
  verified : Bool
  description : Option String := none
  age : Option Int := none
deriving DecidableEq

/-- External collaborators of the plugin: the HTTP transport composed
with BeautifulSoup (`fetch`, `fetchDetail`, `parseTextNodes`), and the
CouchPotato / stdlib helpers.  `strptime` parses a string in the format
`%d/%m/%Y %H:%M` to seconds (raising `ValueError` on mismatch); `now`
is `datetime.now()` in the same scale. -/
structure Env where
  fetch : String → Except PyErr Page
  fetchDetail : String → Except PyErr DetailPage
  parseTextNodes : String → List String
  parseSize : String → Int
  getImdb : String → List String
  simplify : String → String
  quote : String → String
  strptime : String → Except PyErr Int
  now : Int

/-- `YGG.limit`. -/
def limit : Nat := 50

/-- `YGG.loginCheckSuccess`: BeautifulSoup's `find(text=u' Déconnexion')`
matches a text node whose string equals the marker exactly. -/
def loginCheckSuccess (E : Env) (output : String) : Bool :=
  (E.parseTextNodes output).any (fun t => t = " Déconnexion")

/-- The parameter dict of `YGG.buildUrl`, as key/value pairs; when
`offset > 0` a `page` entry of `offset * limit` is added.  (The Python
dict's iteration order is implementation defined; the claims proved
below only concern membership of keys, which is order independent.) -/
def buildUrlParams (E : Env) (title : String) (offset : Nat) : List (String × String) :=
  let base := [("category", "2145"), ("description", ""), ("do", "search"),
               ("file", ""), ("name", E.simplify title), ("sub_category", "all"),
               ("uploader", "")]
  if offset > 0 then base ++ [("page", toString (offset * limit))] else base

/-- CouchPotato `tryUrlencode` over a parameter dict: percent-quoted
values joined as `k=v` pairs with `&`. -/
def pyUrlencode (E : Env) (ps : List (String × String)) : String :=
  String.intercalate "&" (ps.map (fun p => p.1 ++ "=" ++ E.quote p.2))

/-- `YGG.buildUrl`: formats the search template with the encoded
parameters; when `urls['search']` is `None`, `None.format` raises. -/
def buildUrl (E : Env) (urls : Urls) (title : String) (offset : Nat) :
    Except PyErr String :=
  match urls.search with
  | none => Except.error PyErr.attributeError
  | some tmpl => Except.ok (pyFormat tmpl (pyUrlencode E (buildUrlParams E title offset)))

/-- Characters after the last `/`, when the string has one. -/
def afterLastSlash : List Char → Option (List Char)
  | [] => none
  | c :: cs =>
    match afterLastSlash cs with
    | some t => some t
    | none => if c = '/' then some cs else none

/-- `re.search('/(\d+)-[^/\s]+$', s)` and its first group.  Any match of
this pattern runs to the end of the string and contains no `/` after its
leading one, so the only candidate position is the last `/`; after it the
pattern demands a nonempty digit run, a `-`, and a nonempty tail free of
`/` and whitespace. -/
def idSearch (s : List Char) : Option (List Char) :=
  match afterLastSlash s with
  | none => none
  | some seg =>
    match seg.drop (seg.takeWhile isDigitC).length with
    | '-' :: tail =>
      if !(seg.takeWhile isDigitC).isEmpty && !tail.isEmpty &&
          tail.all (fun c => !(c = '/') && !(pyIsSpace c)) then
        some (seg.takeWhile isDigitC)
      else none
    | _ => none

/-- Lines 221–222 of the source:
`tryInt(re.search('/(\d+)-[^/\s]+$', link['href']).group(1))`.
When the pattern does not match, `re.search` returns `None` and
`.group(1)` raises `AttributeError`. -/
def extractId (href : String) : Except PyErr Int :=
  match idSearch href.data with
  | none => Except.error PyErr.attributeError
  | some d => Except.ok (tryInt (String.mk d))

/-- Python `list[i]` for a nonnegative literal index. -/
def pyIndex (l : List String) (i : Nat) : Except PyErr String :=
  match l.get? i with
  | some x => Except.ok x
  | none => Except.error PyErr.indexError

/-- The anchor filter `re.compile('^{}'.format(self.urls['torrent']))` of
line 213; `'{}'.format(None)` is the string `None`. -/
def hrefFilterStr (urls : Urls) : String :=
  match urls.torrent with
  | some t => t
  | none => "None"

/-- The category test of lines 218–219:
`re.search(u'/filmvidéo/(film|animation|documentaire)/', detail_url)`. -/
def categoryMatch (href : String) : Bool :=
  hasSubstr "/filmvidéo/film/".data href.data ||
  hasSubstr "/filmvidéo/animation/".data href.data ||
  hasSubstr "/filmvidéo/documentaire/".data href.data

/-- An anchor that produces a result: it passed BeautifulSoup's href
filter and the category test. -/
def qualifies (urls : Urls) (a : Anchor) : Bool :=
  startsWithStr (hrefFilterStr urls) a.href && categoryMatch a.href

/-- The body of the anchor loop of lines 217–239, for one anchor that
already passed both filters: extract name, id, the three fixed columns,
and build the result dict. -/
def extractResult (E : Env) (urls : Urls) (a : Anchor) : Except PyErr SearchResult :=
  let name := pyStrip a.text
  match extractId a.href with
  | Except.error e => Except.error e
  | Except.ok id_ =>
    match pyIndex a.rowTds 5 with
    | Except.error e => Except.error e
    | Except.ok c5 =>
      let size := E.parseSize (pyStrip c5)
      match pyIndex a.rowTds 7 with
      | Except.error e => Except.error e
      | Except.ok c7 =>
        let seeders := tryInt (pyStrip c7)
        match pyIndex a.rowTds 8 with
        | Except.error e => Except.error e
        | Except.ok c8 =>
          let leechers := tryInt (pyStrip c8)
          match urls.url with
          | none => Except.error PyErr.attributeError
          | some utmpl =>
            Except.ok { id := id_, name := name, seeders := seeders,
                        leechers := leechers, size := size,
                        url := pyFormat utmpl (toString id_),
                        detail_url := a.href, verified := true }

/-- The anchor loop of lines 216–240: results are appended in order; an
exception aborts the loop, keeping what was already appended. -/
def processAnchors (E : Env) (urls : Urls) :
    List Anchor → List SearchResult → List SearchResult × Option PyErr
  | [], acc => (acc, none)
  | a :: rest, acc =>
    if startsWithStr (hrefFilterStr urls) a.href then
      if categoryMatch a.href then
        match extractResult E urls a with
        | Except.ok r => processAnchors E urls rest (acc ++ [r])
        | Except.error e => (acc, some e)
      else processAnchors E urls rest acc
    else processAnchors E urls rest acc

/-- The pagination loop of lines 244–249, reduced to its decision:
`true` when some `li`'s number exceeds `offset + 1` (the loop recurses
and then breaks at the first such item), `false` when the loop runs out,
an error when an `li` has no `a` (`parseText(None)` raises). -/
def pagDecide (offset : Nat) : List (Option String) → Except PyErr Bool
  | [] => Except.ok false
  | none :: _ => Except.error PyErr.attributeError
  | some a :: rest =>
    if tryInt (pyStrip a) > (offset : Int) + 1 then Except.ok true
    else pagDecide offset rest

/-- Lines 214–249, the part of `_searchOnTitle` that consumes one fetched
page: locate the results container (absent → nothing happens, the
pagination block is inside the `if resultList:` branch), run the anchor
loop, then the pagination decision.  The third component records whether
the call recurses. -/
def processPage (E : Env) (urls : Urls) (page : Page) (offset : Nat)
    (results : List SearchResult) : List SearchResult × Option PyErr × Bool :=
  match page.resultList with
  | none => (results, none, false)
  | some anchors =>
    match processAnchors E urls anchors results with
    | (rs, some e) => (rs, some e, false)
    | (rs, none) =>
      match page.pagination with
      | none => (rs, none, false)
      | some lis =>
        match pagDecide offset lis with
        | Except.error e => (rs, some e, false)
        | Except.ok b => (rs, none, b)

/-- The protected body of `_searchOnTitle` (lines 210–249).  The second
component is the exception reaching this invocation's own handler, if
any.  The recursive call goes through the callee's handler, so a deeper
failure never reaches this frame (line 247 calls the full, catching
`_searchOnTitle`).  Fuel `0` stands for Python's `RecursionError`. -/
def searchBody (E : Env) (urls : Urls) :
    Nat → String → Nat → List SearchResult → List SearchResult × Option PyErr
  | 0, _, _, results => (results, some PyErr.recursionError)
  | fuel + 1, title, offset, results =>
    match buildUrl E urls title offset with
    | Except.error e => (results, some e)
    | Except.ok u =>
      match E.fetch u with
      | Except.error e => (results, some e)
      | Except.ok page =>
        match processPage E urls page offset results with
        | (rs, some e, _) => (rs, some e)
        | (rs, none, true) => ((searchBody E urls fuel title (offset + 1) rs).1, none)
        | (rs, none, false) => (rs, none)

/-- `YGG._searchOnTitle`: the whole body sits in `try: ... except:` that
logs the traceback and swallows, so the call always returns and the list
built so far is what the caller keeps. -/
def searchOnTitle (E : Env) (urls : Urls) (fuel : Nat) (title : String)
    (offset : Nat) (results : List SearchResult) : List SearchResult :=
  match searchBody E urls fuel title offset results with
  | (rs, _) => rs

/-- `line.getText().split('(')[0]` of line 145. -/
def beforeParen (s : String) : String :=
  String.mk (s.data.takeWhile (fun c => !(c = '(')))

/-- Lines 144–147 of `getMoreInfo`: find the `Uploadé le` text node (a
missing node, or a node with no following `td`, raises), parse the text
before the first parenthesis with `strptime` (a mismatch raises), and
set `age` to the `days` field of `datetime.now() - added`, the floor of
the difference in days. -/
def getMoreInfoTail (E : Env) (dp : DetailPage) (nzb1 : SearchResult) :
    Except PyErr SearchResult :=
  match dp.uploadeLe with
  | none => Except.error PyErr.attributeError
  | some none => Except.error PyErr.attributeError
  | some (some tdText) =>
    match E.strptime (pyStrip (beforeParen tdText)) with
    | Except.error e => Except.error e
    | Except.ok added =>
      Except.ok { nzb1 with age := some (Int.fdiv (E.now - added) 86400) }

/-- `YGG.getMoreInfo` (lines 131–148): fetch the detail page; a missing
`description-header` raises `AttributeError`; a found header with no
following `div` leaves `description` unset (the `if description:`
guard) without raising; then the upload-date part runs.  No handler
here: every exception propagates to the caller. -/
def getMoreInfo (E : Env) (nzb : SearchResult) : Except PyErr SearchResult :=
  match E.fetchDetail nzb.detail_url with
  | Except.error e => Except.error e
  | Except.ok dp =>
    match dp.descHeader with
    | none => Except.error PyErr.attributeError
    | some (some d) => getMoreInfoTail E dp { nzb with description := some d }
    | some none => getMoreInfoTail E dp nzb

/-- `YGG.extraCheck` (lines 150–167): reject when `getImdb` finds a
number of ids outside `[0, 1]`.  The method only reads the dict; the
state-passing pair returns it alongside the verdict. -/
def extraCheck (E : Env) (nzb : SearchResult) : Bool × SearchResult :=
  let ids := E.getImdb ((nzb.description).getD "")
  let result := if ids.length ∈ ([0, 1] : List Nat) then true else false
  (result, nzb)

/-- A concrete environment: identity-like external helpers over a fixed
provider url.  Individual witnesses override the fields they exercise. -/
def baseEnv : Env :=
  { fetch := fun _ => Except.error PyErr.other
    fetchDetail := fun _ => Except.error PyErr.other
    parseTextNodes := fun s => [s]
    parseSize := fun _ => 0
    getImdb := fun _ => []
    simplify := fun s => s
    quote := fun s => s
    strptime := fun _ => Except.error PyErr.valueError
    now := 0 }

/-- The endpoint set derived from a concrete configured url. -/
def theUrls : Urls := refreshUrls "https://ygg.ee"

/-- The field-level content of one extracted result, as the claim states
it: id from the trailing href segment, name from the anchor text, size
from the 6th cell, seeders from the 8th, leechers from the 9th,
`verified` set, download url formatted from the id, detail url the
anchor's href. -/
def FieldSpec (E : Env) (urls : Urls) (a : Anchor) (r : SearchResult) : Prop :=
  (∃ d, idSearch a.href.data = some d ∧ r.id = tryInt (String.mk d)) ∧
  r.name = pyStrip a.text ∧
  (∃ c5, a.rowTds.get? 5 = some c5 ∧ r.size = E.parseSize (pyStrip c5)) ∧
  (∃ c7, a.rowTds.get? 7 = some c7 ∧ r.seeders = tryInt (pyStrip c7)) ∧
  (∃ c8, a.rowTds.get? 8 = some c8 ∧ r.leechers = tryInt (pyStrip c8)) ∧
  r.verified = true ∧
  (∃ utmpl, urls.url = some utmpl ∧ r.url = pyFormat utmpl (toString r.id)) ∧
  r.detail_url = a.href ∧
  r.description = none ∧ r.age = none

/-- A concrete result dict with a description, for the frame witness. -/
def nzbA : SearchResult :=
  { id := 1, name := "a", seeders := 0, leechers := 0, size := 0,
    url := "u", detail_url := "d", verified := true, description := some "D" }

/-- A second dict agreeing with `nzbA` only on the description. -/
def nzbB : SearchResult :=
  { id := 2, name := "b", seeders := 5, leechers := 0, size := 9,
    url := "v", detail_url := "e", verified := true, description := some "D" }

/-- A detail page whose `description-header` exists but is followed by
no `div`, and whose upload line is present and well formed. -/
def dpNoDiv : DetailPage :=
  { descHeader := some none, uploadeLe := some (some "01/01/2020 00:00 (x)") }

/-- Environment serving `dpNoDiv` with a successful timestamp parse one
day before `now`. -/
def envNoDiv : Env :=
  { fetch := fun _ => Except.error PyErr.other
    fetchDetail := fun _ => Except.ok dpNoDiv
    parseTextNodes := fun s => [s]
    parseSize := fun _ => 0
    getImdb := fun _ => []
    simplify := fun s => s
    quote := fun s => s
    strptime := fun _ => Except.ok 0
    now := 86400 }

/-- A result fresh from extraction: no description, no age. -/
def nzbNoDesc : SearchResult :=
  { id := 1, name := "n", seeders := 0, leechers := 0, size := 0,
    url := "u", detail_url := "d", verified := true }

/-- `nzbNoDesc` after the enrichment of the counterexample run: `age`
set, `description` still absent. -/
def nzbNoDescAged : SearchResult :=
  { id := 1, name := "n", seeders := 0, leechers := 0, size := 0,
    url := "u", detail_url := "d", verified := true, age := some 1 }

/-- A detail page with a description block but no upload label. -/
def dpNoLabel : DetailPage :=
  { descHeader := some (some "desc"), uploadeLe := none }

/-- Environment serving `dpNoLabel`. -/
def envNoLabel : Env :=
  { fetch := fun _ => Except.error PyErr.other
    fetchDetail := fun _ => Except.ok dpNoLabel
    parseTextNodes := fun s => [s]
    parseSize := fun _ => 0
    getImdb := fun _ => []
    simplify := fun s => s
    quote := fun s => s
    strptime := fun _ => Except.error PyErr.valueError
    now := 0 }

/-- A qualifying anchor whose row has no cells. -/
def aBad : Anchor :=
  { href := "https://ygg.ee/torrent/filmvidéo/film/123-abc", text := "T", rowTds := [] }

/-- A page holding only `aBad`. -/
def pageBad : Page :=
  { resultList := some [aBad], pagination := none }

/-- The shared row of the fixture: size in cell 5, seeders in cell 7,
leechers in cell 8. -/
def rowW : List String :=
  ["c0", "c1", "c2", "c3", "c4", "700 Mo", "c6", "10", "2"]

/-- Qualifying film anchor of the fixture. -/
def aq1 : Anchor :=
  { href := "https://ygg.ee/torrent/filmvidéo/film/101-one", text := " One ",
    rowTds := rowW }

/-- Qualifying animation anchor of the fixture. -/
def aq2 : Anchor :=
  { href := "https://ygg.ee/torrent/filmvidéo/animation/202-two", text := "Two",
    rowTds := rowW }

/-- Qualifying documentary anchor of the fixture. -/
def aq3 : Anchor :=
  { href := "https://ygg.ee/torrent/filmvidéo/documentaire/303-three", text := "Three",
    rowTds := rowW }

/-- Disqualified anchor: right prefix, series category. -/
def ad1 : Anchor :=
  { href := "https://ygg.ee/torrent/filmvidéo/serie-tv/404-four", text := "Four",
    rowTds := rowW }

/-- Disqualified anchor: right prefix, game category. -/
def ad2 : Anchor :=
  { href := "https://ygg.ee/torrent/jeu-vidéo/505-five", text := "Five",
    rowTds := rowW }

/-- The fixture page: three qualifying and two disqualified anchors. -/
def pageFixture : Page :=
  { resultList := some [aq1, ad1, aq2, ad2, aq3], pagination := none }

/-- Extraction of `aq1`. -/
def rW1 : SearchResult :=
  { id := 101, name := "One", seeders := 10, leechers := 2, size := 0,
    url := "https://ygg.ee/engine/download_torrent?id=101",
    detail_url := "https://ygg.ee/torrent/filmvidéo/film/101-one", verified := true }

/-- Extraction of `aq2`. -/
def rW2 : SearchResult :=
  { id := 202, name := "Two", seeders := 10, leechers := 2, size := 0,
    url := "https://ygg.ee/engine/download_torrent?id=202",
    detail_url := "https://ygg.ee/torrent/filmvidéo/animation/202-two", verified := true }

/-- Extraction of `aq3`. -/
def rW3 : SearchResult :=
  { id := 303, name := "Three", seeders := 10, leechers := 2, size := 0,
    url := "https://ygg.ee/engine/download_torrent?id=303",
    detail_url := "https://ygg.ee/torrent/filmvidéo/documentaire/303-three",
    verified := true }

/-- A page with no results container but a pagination link to page 3. -/
def pageNoContainer : Page :=
  { resultList := none, pagination := some [some "3"] }

/-- A page with an empty results container and links to pages 1 and 2. -/
def pageRec : Page :=
  { resultList := some [], pagination := some [some "1", some "2"] }

/-- Environment whose fetch always returns `pageRec`. -/
def envRec : Env :=
  { fetch := fun _ => Except.ok pageRec
    fetchDetail := fun _ => Except.error PyErr.other
    parseTextNodes := fun s => [s]
    parseSize := fun _ => 0
    getImdb := fun _ => []
    simplify := fun s => s
    quote := fun s => s
    strptime := fun _ => Except.error PyErr.valueError
    now := 0 }

/-! ## Theorems -/

/-! ## Helper lemmas -/

theorem all_takeWhile (p : Char → Bool) : ∀ l : List Char, (l.takeWhile p).all p = true
  | [] => rfl
  | c :: t => by
    by_cases h : p c
    · simp [List.takeWhile_cons, h, all_takeWhile p t]
    · simp [List.takeWhile_cons, h]

theorem digit_not_space (c : Char) (h : isDigitC c = true) : pyIsSpace c = false := by
  simp only [isDigitC, Bool.and_eq_true, decide_eq_true_eq] at h
  simp only [pyIsSpace, Bool.or_eq_false_iff, decide_eq_false_iff_not]
  refine ⟨⟨⟨⟨⟨?_, ?_⟩, ?_⟩, ?_⟩, ?_⟩, ?_⟩ <;> rintro rfl <;> exact absurd h (by decide)

theorem dropWhile_of_head_not (p : Char → Bool) (l : List Char)
    (h : ∀ c ∈ l, p c = false) : l.dropWhile p = l := by
  cases l with
  | nil => rfl
  | cons c t =>
    have hc := h c (List.mem_cons_self c t)
    simp [List.dropWhile_cons, hc]

theorem stripChars_of_digits (d : List Char) (h : ∀ c ∈ d, isDigitC c = true) :
    stripChars d = d := by
  have hns : ∀ c ∈ d, pyIsSpace c = false := fun c hc => digit_not_space c (h c hc)
  unfold stripChars
  rw [dropWhile_of_head_not _ _ hns,
      dropWhile_of_head_not _ _ (fun c hc => hns c (List.mem_reverse.mp hc)),
      List.reverse_reverse]

theorem pyIntParse_digits (d : List Char) (hne : d ≠ [])
    (h : ∀ c ∈ d, isDigitC c = true) :
    pyIntParse d = some ((digitsToNat d : Nat) : Int) := by
  unfold pyIntParse
  rw [stripChars_of_digits d h]
  cases d with
  | nil => exact absurd rfl hne
  | cons c ds =>
    have hc : isDigitC c = true := h c (List.mem_cons_self c ds)
    have hm : ¬(c = '-') := by rintro rfl; exact absurd hc (by decide)
    have hp : ¬(c = '+') := by rintro rfl; exact absurd hc (by decide)
    have hall : (c :: ds).all isDigitC = true := List.all_eq_true.mpr h
    simp [hm, hp, hall]

theorem idSearch_digits (s : List Char) (d : List Char) (h : idSearch s = some d) :
    d ≠ [] ∧ ∀ c ∈ d, isDigitC c = true := by
  unfold idSearch at h
  split at h
  · exact absurd h (by simp)
  · rename_i seg hseg
    split at h
    · rename_i tail hdrop
      split at h
      · rename_i hcond
        injection h with h
        subst h
        refine ⟨?_, fun c hc => List.all_eq_true.mp (all_takeWhile isDigitC seg) c hc⟩
        simp only [Bool.and_eq_true, Bool.not_eq_true'] at hcond
        intro he
        rw [he] at hcond
        exact absurd hcond.1.1 (by decide)
      · exact absurd h (by simp)
    · exact absurd h (by simp)

theorem pyIndex_ok {l : List String} {i : Nat} {x : String}
    (h : pyIndex l i = Except.ok x) : l.get? i = some x := by
  unfold pyIndex at h
  cases hg : l.get? i with
  | none => rw [hg] at h; exact absurd h (by simp)
  | some y => rw [hg] at h; injection h with h; rw [h]

theorem processAnchors_extends (E : Env) (urls : Urls) (anchors : List Anchor) :
    ∀ acc, ∃ t, (processAnchors E urls anchors acc).1 = acc ++ t := by
  induction anchors with
  | nil => intro acc; exact ⟨[], by simp [processAnchors]⟩
  | cons a rest ih =>
    intro acc
    unfold processAnchors
    by_cases h1 : startsWithStr (hrefFilterStr urls) a.href = true
    · rw [if_pos h1]
      by_cases h2 : categoryMatch a.href = true
      · rw [if_pos h2]
        cases hr : extractResult E urls a with
        | ok r =>
          obtain ⟨t, ht⟩ := ih (acc ++ [r])
          exact ⟨r :: t, by rw [ht]; simp⟩
        | error e => exact ⟨[], by simp⟩
      · rw [if_neg h2]; exact ih acc
    · rw [if_neg h1]; exact ih acc

theorem processPage_extends (E : Env) (urls : Urls) (page : Page) (offset : Nat)
    (results : List SearchResult) :
    ∃ t, (processPage E urls page offset results).1 = results ++ t := by
  unfold processPage
  cases hres : page.resultList with
  | none => exact ⟨[], by simp⟩
  | some anchors =>
    try simp only []
    obtain ⟨t, ht⟩ := processAnchors_extends E urls anchors results
    rcases hpa : processAnchors E urls anchors results with ⟨rs, err⟩
    rw [hpa] at ht
    have ht' : rs = results ++ t := ht
    cases err with
    | some e => exact ⟨t, ht'⟩
    | none =>
      try simp only []
      cases hpag : page.pagination with
      | none => exact ⟨t, ht'⟩
      | some lis =>
        try simp only []
        cases hd : pagDecide offset lis with
        | error e => exact ⟨t, ht'⟩
        | ok b => exact ⟨t, ht'⟩

theorem searchBody_extends (E : Env) (urls : Urls) (fuel : Nat) :
    ∀ title offset results,
      ∃ t, (searchBody E urls fuel title offset results).1 = results ++ t := by
  induction fuel with
  | zero => intro title offset results; exact ⟨[], by simp [searchBody]⟩
  | succ fuel ih =>
    intro title offset results
    unfold searchBody
    cases hbu : buildUrl E urls title offset with
    | error e => exact ⟨[], by simp⟩
    | ok u =>
      try simp only []
      cases hf : E.fetch u with
      | error e => exact ⟨[], by simp⟩
      | ok page =>
        try simp only []
        obtain ⟨t1, ht1⟩ := processPage_extends E urls page offset results
        rcases hp : processPage E urls page offset results with ⟨rs, err, b⟩
        rw [hp] at ht1
        have ht1' : rs = results ++ t1 := ht1
        cases err with
        | some e => exact ⟨t1, ht1'⟩
        | none =>
          try simp only []
          cases b with
          | false => exact ⟨t1, ht1'⟩
          | true =>
            obtain ⟨t2, ht2⟩ := ih title (offset + 1) rs
            refine ⟨t1 ++ t2, ?_⟩
            try simp only []
            rw [ht2, ht1', List.append_assoc]

theorem extractResult_spec (E : Env) (urls : Urls) (a : Anchor) (r : SearchResult)
    (h : extractResult E urls a = Except.ok r) : FieldSpec E urls a r := by
  unfold extractResult at h
  cases hid : extractId a.href with
  | error e => rw [hid] at h; exact absurd h (by simp)
  | ok id_ =>
    rw [hid] at h
    try simp only [] at h
    cases h5 : pyIndex a.rowTds 5 with
    | error e => rw [h5] at h; exact absurd h (by simp)
    | ok c5 =>
      rw [h5] at h
      try simp only [] at h
      cases h7 : pyIndex a.rowTds 7 with
      | error e => rw [h7] at h; exact absurd h (by simp)
      | ok c7 =>
        rw [h7] at h
        try simp only [] at h
        cases h8 : pyIndex a.rowTds 8 with
        | error e => rw [h8] at h; exact absurd h (by simp)
        | ok c8 =>
          rw [h8] at h
          try simp only [] at h
          cases hu : urls.url with
          | none => rw [hu] at h; exact absurd h (by simp)
          | some utmpl =>
            rw [hu] at h
            try simp only [] at h
            injection h with h
            subst h
            have hidv : ∃ d, idSearch a.href.data = some d ∧ id_ = tryInt (String.mk d) := by
              unfold extractId at hid
              cases hs : idSearch a.href.data with
              | none => rw [hs] at hid; exact absurd hid (by simp)
              | some d =>
                rw [hs] at hid
                injection hid with hid
                exact ⟨d, rfl, hid.symm⟩
            exact ⟨hidv, rfl, ⟨c5, pyIndex_ok h5, rfl⟩, ⟨c7, pyIndex_ok h7, rfl⟩,
                   ⟨c8, pyIndex_ok h8, rfl⟩, rfl, ⟨utmpl, hu, rfl⟩, rfl, rfl, rfl⟩

theorem processAnchors_sound (E : Env) (urls : Urls) (anchors : List Anchor) :
    ∀ acc rs, processAnchors E urls anchors acc = (rs, none) →
      ∃ L, rs = acc ++ L ∧
        List.Forall₂ (fun a r => extractResult E urls a = Except.ok r)
          (anchors.filter (fun a => qualifies urls a)) L := by
  induction anchors with
  | nil =>
    intro acc rs h
    unfold processAnchors at h
    injection h with h1 h2
    exact ⟨[], by simp [h1.symm], by simp [List.Forall₂]⟩
  | cons a rest ih =>
    intro acc rs h
    unfold processAnchors at h
    by_cases h1 : startsWithStr (hrefFilterStr urls) a.href = true
    · rw [if_pos h1] at h
      by_cases h2 : categoryMatch a.href = true
      · rw [if_pos h2] at h
        cases hr : extractResult E urls a with
        | error e =>
          rw [hr] at h
          try simp only [] at h
          injection h with h1x h2x
          exact absurd h2x (by simp)
        | ok r =>
          rw [hr] at h
          try simp only [] at h
          obtain ⟨L, hL, hF⟩ := ih (acc ++ [r]) rs h
          refine ⟨r :: L, by rw [hL]; simp, ?_⟩
          have hfil : (a :: rest).filter (fun a => qualifies urls a)
              = a :: rest.filter (fun a => qualifies urls a) := by
            simp [List.filter_cons, qualifies, h1, h2]
          rw [hfil]
          exact List.Forall₂.cons hr hF
      · rw [if_neg h2] at h
        obtain ⟨L, hL, hF⟩ := ih acc rs h
        refine ⟨L, hL, ?_⟩
        have hfil : (a :: rest).filter (fun a => qualifies urls a)
            = rest.filter (fun a => qualifies urls a) := by
          simp [List.filter_cons, qualifies, h1, h2]
        rw [hfil]
        exact hF
    · rw [if_neg h1] at h
      obtain ⟨L, hL, hF⟩ := ih acc rs h
      refine ⟨L, hL, ?_⟩
      have hfil : (a :: rest).filter (fun a => qualifies urls a)
          = rest.filter (fun a => qualifies urls a) := by
        simp [List.filter_cons, qualifies, h1]
      rw [hfil]
      exact hF

theorem pagDecide_true_iff (offset : Nat) (lis : List (Option String)) :
    pagDecide offset lis = Except.ok true ↔
      ∃ pre a rest, lis = pre ++ some a :: rest ∧
        (∀ x ∈ pre, ∃ s, x = some s ∧ ¬(tryInt (pyStrip s) > (offset : Int) + 1)) ∧
        tryInt (pyStrip a) > (offset : Int) + 1 := by
  induction lis with
  | nil =>
    constructor
    · intro h; exact absurd h (by simp [pagDecide])
    · rintro ⟨pre, a, rest, heq, -, -⟩
      cases pre <;> simp at heq
  | cons x t ih =>
    cases x with
    | none =>
      constructor
      · intro h; exact absurd h (by simp [pagDecide])
      · rintro ⟨pre, a, rest, heq, hpre, ha⟩
        cases pre with
        | nil => simp at heq
        | cons y ys =>
          rw [List.cons_append] at heq
          injection heq with hy ht
          obtain ⟨s, hs, -⟩ := hpre y (List.mem_cons_self y ys)
          rw [← hy] at hs
          exact absurd hs (by simp)
    | some a0 =>
      by_cases hc : tryInt (pyStrip a0) > (offset : Int) + 1
      · constructor
        · intro _
          exact ⟨[], a0, t, by simp, by simp, hc⟩
        · intro _
          unfold pagDecide
          rw [if_pos hc]
      · constructor
        · intro h
          unfold pagDecide at h
          rw [if_neg hc] at h
          obtain ⟨pre, a, rest, heq, hpre, ha⟩ := ih.mp h
          refine ⟨some a0 :: pre, a, rest, by rw [heq, List.cons_append], ?_, ha⟩
          intro x hx
          rcases List.mem_cons.mp hx with hx0 | hxp
          · exact ⟨a0, hx0, hc⟩
          · exact hpre x hxp
        · rintro ⟨pre, a, rest, heq, hpre, ha⟩
          cases pre with
          | nil =>
            simp only [List.nil_append] at heq
            injection heq with hy ht
            injection hy with hy
            rw [hy] at hc
            exact absurd ha hc
          | cons y ys =>
            rw [List.cons_append] at heq
            injection heq with hy ht
            unfold pagDecide
            rw [if_neg hc]
            refine ih.mpr ⟨ys, a, rest, ht, ?_, ha⟩
            intro x hx
            exact hpre x (List.mem_cons_of_mem y hx)

theorem processPage_ok (E : Env) (urls : Urls) (page : Page) (offset : Nat)
    (results rs : List SearchResult) (b : Bool)
    (h : processPage E urls page offset results = (rs, none, b)) :
    (page.resultList = none ∧ rs = results ∧ b = false) ∨
    (∃ anchors, page.resultList = some anchors ∧
      processAnchors E urls anchors results = (rs, none) ∧
      ((page.pagination = none ∧ b = false) ∨
       (∃ lis, page.pagination = some lis ∧ pagDecide offset lis = Except.ok b))) := by
  unfold processPage at h
  cases hres : page.resultList with
  | none =>
    rw [hres] at h
    try simp only [] at h
    injection h with ha hb
    injection hb with hb1 hb2
    exact Or.inl ⟨rfl, ha.symm, hb2.symm⟩
  | some anchors =>
    rw [hres] at h
    try simp only [] at h
    rcases hpa : processAnchors E urls anchors results with ⟨rs1, err1⟩
    rw [hpa] at h
    try simp only [] at h
    cases err1 with
    | some e =>
      try simp only [] at h
      injection h with ha hb
      injection hb with hb1 hb2
      exact absurd hb1 (by simp)
    | none =>
      try simp only [] at h
      cases hpag : page.pagination with
      | none =>
        rw [hpag] at h
        try simp only [] at h
        injection h with ha hb
        injection hb with hb1 hb2
        subst ha
        exact Or.inr ⟨anchors, rfl, hpa, Or.inl ⟨rfl, hb2.symm⟩⟩
      | some lis =>
        rw [hpag] at h
        try simp only [] at h
        cases hd : pagDecide offset lis with
        | error e =>
          rw [hd] at h
          try simp only [] at h
          injection h with ha hb
          injection hb with hb1 hb2
          exact absurd hb1 (by simp)
        | ok bb =>
          rw [hd] at h
          try simp only [] at h
          injection h with ha hb
          injection hb with hb1 hb2
          subst ha
          subst hb2
          exact Or.inr ⟨anchors, rfl, hpa, Or.inr ⟨lis, rfl, hd⟩⟩

theorem processPage_none (E : Env) (urls : Urls) (page : Page) (offset : Nat)
    (results : List SearchResult) (h : page.resultList = none) :
    processPage E urls page offset results = (results, none, false) := by
  unfold processPage
  rw [h]

theorem processPage_no_pagination (E : Env) (urls : Urls) (page : Page) (offset : Nat)
    (results : List SearchResult) (h : page.pagination = none) :
    (processPage E urls page offset results).2.2 = false := by
  unfold processPage
  cases hres : page.resultList with
  | none => rfl
  | some anchors =>
    try simp only []
    rcases hpa : processAnchors E urls anchors results with ⟨rs1, err1⟩
    try simp only []
    cases err1 with
    | some e => rfl
    | none =>
      try simp only []
      rw [h]

theorem searchBody_recurse (E : Env) (urls : Urls) (fuel : Nat) (title : String)
    (offset : Nat) (results : List SearchResult) (u : String) (page : Page)
    (rs : List SearchResult)
    (hbu : buildUrl E urls title offset = Except.ok u)
    (hf : E.fetch u = Except.ok page)
    (hp : processPage E urls page offset results = (rs, none, true)) :
    searchBody E urls (fuel + 1) title offset results
      = ((searchBody E urls fuel title (offset + 1) rs).1, none) := by
  conv_lhs => unfold searchBody
  rw [hbu]
  try simp only []
  rw [hf]
  try simp only []
  rw [hp]

/-- C2: every exception raised inside a `_searchOnTitle` invocation is
caught by its own handler and swallowed: the call always returns the
accumulated list (the first component of the protected body, whatever
the error component was), and the results already in the sink are
preserved as a prefix of the returned list. -/
theorem c2_exceptions_swallowed (E : Env) (urls : Urls) (fuel : Nat) (title : String)
    (offset : Nat) (results : List SearchResult) :
    searchOnTitle E urls fuel title offset results
      = (searchBody E urls fuel title offset results).1 ∧
    ∃ t, searchOnTitle E urls fuel title offset results = results ++ t := by
  have h1 : searchOnTitle E urls fuel title offset results
      = (searchBody E urls fuel title offset results).1 := rfl
  refine ⟨h1, ?_⟩
  rw [h1]
  exact searchBody_extends E urls fuel title offset results

/-- C6: a configured url matching the https pattern yields exactly the
four documented endpoints over the matched base; a non-matching url
unsets all four. -/
theorem c6_refreshUrls (s : String) :
    (∀ base, urlRegexpSearch s = some base →
      refreshUrls s =
        { login_check := some (base ++ "/user/account")
          search := some (base ++ "/engine/search?\x7b\x7d")
          torrent := some (base ++ "/torrent")
          url := some (base ++ "/engine/download_torrent?id=\x7b\x7d") }) ∧
    (urlRegexpSearch s = none →
      refreshUrls s =
        { login_check := none, search := none, torrent := none, url := none }) := by
  constructor
  · intro base h
    unfold refreshUrls
    rw [h]
  · intro h
    unfold refreshUrls
    rw [h]

/-- C6 witness: a matching https url and a rejected plain-http url. -/
theorem c6_refreshUrls_w :
    refreshUrls "https://www.ygg.se/path" =
      { login_check := some ("https://www.ygg.se" ++ "/user/account")
        search := some ("https://www.ygg.se" ++ "/engine/search?\x7b\x7d")
        torrent := some ("https://www.ygg.se" ++ "/torrent")
        url := some ("https://www.ygg.se" ++ "/engine/download_torrent?id=\x7b\x7d") } ∧
    refreshUrls "http://www.ygg.se" =
      { login_check := none, search := none, torrent := none, url := none } :=
  ⟨(c6_refreshUrls "https://www.ygg.se/path").1 "https://www.ygg.se" (by decide),
   (c6_refreshUrls "http://www.ygg.se").2 (by decide)⟩

/-- C7: the parameter set of `buildUrl` carries no `page` key at offset
`0`, and exactly the key `page = offset * 50` at positive offsets. -/
theorem c7_buildUrl_page (E : Env) (title : String) (offset : Nat) :
    (∀ v, ("page", v) ∉ buildUrlParams E title 0) ∧
    (0 < offset →
      ("page", toString (offset * limit)) ∈ buildUrlParams E title offset ∧
      ∀ v, ("page", v) ∈ buildUrlParams E title offset → v = toString (offset * limit)) := by
  constructor
  · intro v
    simp [buildUrlParams]
  · intro h
    constructor
    · simp [buildUrlParams, h]
    · intro v hv
      simp [buildUrlParams, h] at hv
      exact hv

/-- C7 witness: at offset 2 the page parameter is `100`. -/
theorem c7_buildUrl_page_w :
    ("page", toString (2 * limit)) ∈ buildUrlParams baseEnv "title" 2 ∧
    toString (2 * limit) = "100" :=
  ⟨((c7_buildUrl_page baseEnv "title" 2).2 (by decide)).1, by decide⟩

/-- C9: `extraCheck` accepts exactly when `getImdb` finds at most one
distinct id in the description (empty string when unset). -/
theorem c9_extraCheck (E : Env) (nzb : SearchResult) :
    (extraCheck E nzb).1
      = decide ((E.getImdb ((nzb.description).getD "")).length ≤ 1) := by
  have h1 : ((E.getImdb ((nzb.description).getD "")).length ∈ ([0, 1] : List Nat)) ↔
      (E.getImdb ((nzb.description).getD "")).length ≤ 1 := by
    simp only [List.mem_cons, List.not_mem_nil, or_false]
    omega
  show (if (E.getImdb ((nzb.description).getD "")).length ∈ ([0, 1] : List Nat)
      then true else false) = _
  by_cases h : (E.getImdb ((nzb.description).getD "")).length ≤ 1
  · rw [if_pos (h1.mpr h), decide_eq_true h]
  · rw [if_neg (fun hm => h (h1.mp hm)), decide_eq_false h]

/-- C10: `extraCheck` returns the dict unchanged, and its verdict is a
function of the description field alone. -/
theorem c10_extraCheck_frame (E : Env) (n1 n2 : SearchResult) :
    (extraCheck E n1).2 = n1 ∧
    (n1.description = n2.description → (extraCheck E n1).1 = (extraCheck E n2).1) := by
  refine ⟨rfl, fun h => ?_⟩
  unfold extraCheck
  rw [h]

/-- C10 witness: two dicts sharing a description but nothing else get
the same verdict, and the dict comes back unchanged. -/
theorem c10_extraCheck_frame_w :
    (extraCheck baseEnv nzbA).2 = nzbA ∧
    (extraCheck baseEnv nzbA).1 = (extraCheck baseEnv nzbB).1 :=
  ⟨(c10_extraCheck_frame baseEnv nzbA nzbB).1,
   (c10_extraCheck_frame baseEnv nzbA nzbB).2 rfl⟩

/-- C5 counterexample: the logout marker occurs inside the document's
text (as a substring of a longer text node), yet `loginCheckSuccess`
returns false — `find(text=...)` matches whole text nodes only. -/
theorem c5_loginCheck_cex :
    loginCheckSuccess baseEnv "La Déconnexion est active" = false ∧
    hasSubstr " Déconnexion".data
      (String.join (baseEnv.parseTextNodes "La Déconnexion est active")).data = true := by
  constructor
  · rfl
  · rfl

/-- C5 amended: `loginCheckSuccess` is true iff some text node of the
parsed document equals the marker exactly (position in the markup is
irrelevant, but the node must be the whole marker). -/
theorem c5_loginCheck_amended (E : Env) (output : String) :
    loginCheckSuccess E output = true ↔ " Déconnexion" ∈ E.parseTextNodes output := by
  unfold loginCheckSuccess
  rw [List.any_eq_true]
  constructor
  · rintro ⟨t, ht, he⟩
    rw [decide_eq_true_eq] at he
    rw [← he]
    exact ht
  · intro h
    exact ⟨" Déconnexion", h, by simp⟩

/-- C5 witness: a page with the exact marker node is recognised. -/
theorem c5_loginCheck_amended_w :
    loginCheckSuccess baseEnv " Déconnexion" = true :=
  (c5_loginCheck_amended baseEnv " Déconnexion").mpr (by exact List.mem_singleton.mpr rfl)

/-- C4 counterexample: an anchor url that passes the category filter but
whose tail does not match `/(\d+)-[^/\s]+$`: the id extraction raises
`AttributeError` (from `None.group(1)`) instead of falling back to 0. -/
theorem c4_id_cex :
    categoryMatch "https://ygg.ee/torrent/filmvidéo/film/abc" = true ∧
    extractId "https://ygg.ee/torrent/filmvidéo/film/abc"
      = Except.error PyErr.attributeError := by
  constructor
  · rfl
  · rfl

/-- C4 amended: when the trailing pattern matches, the captured group is
a nonempty digit run, `int()` succeeds on it (the `tryInt` fallback to 0
is never exercised) and the id is its value; when the pattern does not
match, the extraction raises `AttributeError` to the enclosing
catch-all. -/
theorem c4_id_amended (href : String) :
    (∀ d, idSearch href.data = some d →
      extractId href = Except.ok ((digitsToNat d : Nat) : Int) ∧
      pyIntParse d = some ((digitsToNat d : Nat) : Int)) ∧
    (idSearch href.data = none →
      extractId href = Except.error PyErr.attributeError) := by
  constructor
  · intro d hd
    obtain ⟨hne, hdig⟩ := idSearch_digits href.data d hd
    have hp : pyIntParse d = some ((digitsToNat d : Nat) : Int) :=
      pyIntParse_digits d hne hdig
    refine ⟨?_, hp⟩
    unfold extractId
    rw [hd]
    have ht : tryInt (String.mk d) = ((digitsToNat d : Nat) : Int) := by
      show (pyIntParse d).getD 0 = _
      rw [hp]
      rfl
    show Except.ok (tryInt (String.mk d)) = _
    rw [ht]
  · intro h
    unfold extractId
    rw [h]

/-- C4 witness: a well-formed tail gives the parsed id. -/
theorem c4_id_amended_w :
    idSearch "https://ygg.ee/torrent/filmvidéo/film/123-abc".data
      = some ['1', '2', '3'] ∧
    extractId "https://ygg.ee/torrent/filmvidéo/film/123-abc"
      = Except.ok ((digitsToNat ['1', '2', '3'] : Nat) : Int) := by
  have h : idSearch "https://ygg.ee/torrent/filmvidéo/film/123-abc".data
      = some ['1', '2', '3'] := by rfl
  exact ⟨h, ((c4_id_amended "https://ygg.ee/torrent/filmvidéo/film/123-abc").1
    ['1', '2', '3'] h).1⟩

/-- C8 counterexample: `getMoreInfo` returns successfully having set
`age` but not `description` (the `if description:` guard skips a header
with no following `div`), so "sets both description and age" fails. -/
theorem c8_getMoreInfo_cex :
    getMoreInfo envNoDiv nzbNoDesc = Except.ok nzbNoDescAged ∧
    nzbNoDescAged.description = none ∧ nzbNoDescAged.age = some 1 := by
  refine ⟨?_, rfl, rfl⟩
  rfl

theorem getMoreInfoTail_ok (E : Env) (dp : DetailPage) (nzb1 r : SearchResult)
    (h : getMoreInfoTail E dp nzb1 = Except.ok r) :
    ∃ tdText added, dp.uploadeLe = some (some tdText) ∧
      E.strptime (pyStrip (beforeParen tdText)) = Except.ok added ∧
      r = { nzb1 with age := some (Int.fdiv (E.now - added) 86400) } := by
  unfold getMoreInfoTail at h
  cases hul : dp.uploadeLe with
  | none => rw [hul] at h; exact absurd h (by simp)
  | some o =>
    rw [hul] at h
    cases o with
    | none => exact absurd h (by simp)
    | some tdText =>
      try simp only [] at h
      cases hst : E.strptime (pyStrip (beforeParen tdText)) with
      | error e => rw [hst] at h; exact absurd h (by simp)
      | ok added =>
        rw [hst] at h
        try simp only [] at h
        injection h with h
        exact ⟨tdText, added, rfl, hst, h.symm⟩

/-- C8 amended: on success `getMoreInfo` always sets `age` to the floor
of the day difference between now and the parsed publish timestamp, and
sets `description` exactly when a `div` follows the description header
(a missing header raises); a missing `Uploadé le` label, a missing
following cell, or a timestamp `strptime` rejects, raises the error to
the caller — nothing is swallowed in this operation. -/
theorem c8_getMoreInfo_amended (E : Env) (nzb : SearchResult) :
    (∀ r, getMoreInfo E nzb = Except.ok r →
      ∃ dp tdText added,
        E.fetchDetail nzb.detail_url = Except.ok dp ∧
        dp.uploadeLe = some (some tdText) ∧
        E.strptime (pyStrip (beforeParen tdText)) = Except.ok added ∧
        r.age = some (Int.fdiv (E.now - added) 86400) ∧
        (∀ d, dp.descHeader = some (some d) → r.description = some d) ∧
        (dp.descHeader = some none → r.description = nzb.description)) ∧
    (∀ dp, E.fetchDetail nzb.detail_url = Except.ok dp →
      (dp.descHeader = none →
        getMoreInfo E nzb = Except.error PyErr.attributeError) ∧
      (∀ dv, dp.descHeader = some dv → dp.uploadeLe = none →
        getMoreInfo E nzb = Except.error PyErr.attributeError) ∧
      (∀ dv tdText e, dp.descHeader = some dv →
        dp.uploadeLe = some (some tdText) →
        E.strptime (pyStrip (beforeParen tdText)) = Except.error e →
        getMoreInfo E nzb = Except.error e)) := by
  constructor
  · intro r h
    unfold getMoreInfo at h
    cases hfd : E.fetchDetail nzb.detail_url with
    | error e => rw [hfd] at h; exact absurd h (by simp)
    | ok dp =>
      rw [hfd] at h
      try simp only [] at h
      cases hdh : dp.descHeader with
      | none => rw [hdh] at h; exact absurd h (by simp)
      | some dv =>
        rw [hdh] at h
        cases dv with
        | some d =>
          try simp only [] at h
          obtain ⟨tdText, added, hul, hst, hr⟩ := getMoreInfoTail_ok E dp _ r h
          refine ⟨dp, tdText, added, rfl, hul, hst, ?_, ?_, ?_⟩
          · rw [hr]
          · intro d2 hd2
            rw [hdh] at hd2
            injection hd2 with hd2
            injection hd2 with hd2
            rw [hr, ← hd2]
          · intro hco
            rw [hdh] at hco
            injection hco with hco
            exact absurd hco (by simp)
        | none =>
          try simp only [] at h
          obtain ⟨tdText, added, hul, hst, hr⟩ := getMoreInfoTail_ok E dp _ r h
          refine ⟨dp, tdText, added, rfl, hul, hst, ?_, ?_, ?_⟩
          · rw [hr]
          · intro d2 hd2
            rw [hdh] at hd2
            injection hd2 with hd2
            exact absurd hd2 (by simp)
          · intro _
            rw [hr]
  · intro dp hfd
    refine ⟨?_, ?_, ?_⟩
    · intro hdh
      unfold getMoreInfo
      rw [hfd]
      try simp only []
      rw [hdh]
    · intro dv hdh hul
      unfold getMoreInfo
      rw [hfd]
      try simp only []
      rw [hdh]
      cases dv with
      | some d =>
        try simp only []
        unfold getMoreInfoTail
        rw [hul]
      | none =>
        try simp only []
        unfold getMoreInfoTail
        rw [hul]
    · intro dv tdText e hdh hul hst
      unfold getMoreInfo
      rw [hfd]
      try simp only []
      rw [hdh]
      cases dv with
      | some d =>
        try simp only []
        unfold getMoreInfoTail
        rw [hul]
        try simp only []
        rw [hst]
      | none =>
        try simp only []
        unfold getMoreInfoTail
        rw [hul]
        try simp only []
        rw [hst]

/-- C8 witness: with the upload label missing, enrichment raises to the
caller instead of being swallowed. -/
theorem c8_getMoreInfo_amended_w :
    getMoreInfo envNoLabel nzbNoDesc = Except.error PyErr.attributeError :=
  ((c8_getMoreInfo_amended envNoLabel nzbNoDesc).2 dpNoLabel rfl).2.1 (some "desc") rfl rfl

/-- C1 amended: with the results container absent nothing happens and no
error is raised; with it present and the anchor loop completing without
exception, exactly one result is appended per prefix-and-category
qualifying anchor, in order, with the fields of `FieldSpec`. -/
theorem c1_extract_amended (E : Env) (urls : Urls) (page : Page) (offset : Nat)
    (results : List SearchResult) :
    (page.resultList = none →
      processPage E urls page offset results = (results, none, false)) ∧
    (∀ anchors rs err b, page.resultList = some anchors →
      processPage E urls page offset results = (rs, err, b) → err = none →
      ∃ L, rs = results ++ L ∧
        List.Forall₂
          (fun a r => extractResult E urls a = Except.ok r ∧ FieldSpec E urls a r)
          (anchors.filter (fun a => qualifies urls a)) L) := by
  constructor
  · exact processPage_none E urls page offset results
  · intro anchors rs err b hres hp herr
    subst herr
    rcases processPage_ok E urls page offset results rs b hp with
      ⟨hnone, -, -⟩ | ⟨anchors2, hres2, hpa, -⟩
    · rw [hres] at hnone
      exact absurd hnone (by simp)
    · rw [hres] at hres2
      injection hres2 with he
      subst he
      obtain ⟨L, hL, hF⟩ := processAnchors_sound E urls anchors results rs hpa
      exact ⟨L, hL, hF.imp (fun a r h => ⟨h, extractResult_spec E urls a r h⟩)⟩

/-- C1 counterexample: one qualifying anchor is present, but its row has
no 6th cell, so the loop raises `IndexError` and appends nothing: "one
result per qualifying anchor" fails on this fetched page. -/
theorem c1_extract_cex :
    processPage baseEnv theUrls pageBad 0 [] = ([], some PyErr.indexError, false) ∧
    ([aBad].filter (fun a => qualifies theUrls a)).length = 1 := by
  constructor
  · rfl
  · rfl

/-- C1 witness: on the fixture page the loop appends exactly the three
qualifying extractions. -/
theorem c1_extract_amended_w :
    ∃ L, [rW1, rW2, rW3] = [] ++ L ∧
      List.Forall₂
        (fun a r => extractResult baseEnv theUrls a = Except.ok r ∧
          FieldSpec baseEnv theUrls a r)
        ([aq1, ad1, aq2, ad2, aq3].filter (fun a => qualifies theUrls a)) L :=
  (c1_extract_amended baseEnv theUrls pageFixture 0 []).2 [aq1, ad1, aq2, ad2, aq3]
    [rW1, rW2, rW3] none false rfl (by rfl) rfl

/-- C3 amended: the recursion flag is set iff the results container is
present, the anchor loop finished without error, and the pagination
control is present with — scanning its items in order — every item
before the first whose numeric label exceeds `offset + 1` holding an
anchor with a label not exceeding it, and such an item existing (the
scan stops there); an absent container or absent pagination control
means no recursion, and the recursive call is a single call on
`offset + 1` with the same title and the accumulated results. -/
theorem c3_pagination_amended (E : Env) (urls : Urls) (fuel : Nat) (title : String)
    (offset : Nat) (results : List SearchResult) (page : Page) :
    (page.resultList = none →
      (processPage E urls page offset results).2.2 = false) ∧
    (page.pagination = none →
      (processPage E urls page offset results).2.2 = false) ∧
    (∀ rs b, processPage E urls page offset results = (rs, none, b) →
      (b = true ↔ ∃ anchors lis pre a rest,
        page.resultList = some anchors ∧
        page.pagination = some lis ∧
        lis = pre ++ some a :: rest ∧
        (∀ x ∈ pre, ∃ s, x = some s ∧ ¬(tryInt (pyStrip s) > (offset : Int) + 1)) ∧
        tryInt (pyStrip a) > (offset : Int) + 1)) ∧
    (∀ u rs, buildUrl E urls title offset = Except.ok u →
      E.fetch u = Except.ok page →
      processPage E urls page offset results = (rs, none, true) →
      searchBody E urls (fuel + 1) title offset results
        = ((searchBody E urls fuel title (offset + 1) rs).1, none)) := by
  refine ⟨?_, ?_, ?_, ?_⟩
  · intro h
    rw [processPage_none E urls page offset results h]
  · exact processPage_no_pagination E urls page offset results
  · intro rs b hp
    constructor
    · intro hb
      subst hb
      rcases processPage_ok E urls page offset results rs true hp with
        ⟨-, -, hfalse⟩ | ⟨anchors, hres, hpa, hpag⟩
      · exact absurd hfalse (by simp)
      · rcases hpag with ⟨-, hfalse⟩ | ⟨lis, hpag, hd⟩
        · exact absurd hfalse (by simp)
        · obtain ⟨pre, a, rest, heq, hpre, ha⟩ := (pagDecide_true_iff offset lis).mp hd
          exact ⟨anchors, lis, pre, a, rest, hres, hpag, heq, hpre, ha⟩
    · rintro ⟨anchors, lis, pre, a, rest, hres, hpag, heq, hpre, ha⟩
      rcases processPage_ok E urls page offset results rs b hp with
        ⟨hnone, -, -⟩ | ⟨anchors2, hres2, hpa2, hpag2⟩
      · rw [hres] at hnone
        exact absurd hnone (by simp)
      · rcases hpag2 with ⟨hnone, -⟩ | ⟨lis2, hpag2, hd2⟩
        · rw [hpag] at hnone
          exact absurd hnone (by simp)
        · rw [hpag] at hpag2
          injection hpag2 with he
          subst he
          have hdt : pagDecide offset lis = Except.ok true :=
            (pagDecide_true_iff offset lis).mpr ⟨pre, a, rest, heq, hpre, ha⟩
          rw [hdt] at hd2
          injection hd2 with hb
          exact hb.symm
  · intro u rs hbu hf hp
    exact searchBody_recurse E urls fuel title offset results u page rs hbu hf hp

/-- C3 counterexample: the pagination control advertises a page whose
label exceeds `offset + 1`, yet no recursion happens because the
pagination check sits inside the results-container branch and the
container is absent. -/
theorem c3_pagination_cex :
    processPage baseEnv theUrls pageNoContainer 0 [] = ([], none, false) ∧
    pageNoContainer.pagination = some [some "3"] ∧
    tryInt (pyStrip "3") > (0 : Int) + 1 := by
  refine ⟨rfl, rfl, by decide⟩

/-- C3 witness: at offset 0 with pages 1–2 advertised, the call recurses
exactly once, at offset 1, on the accumulated results. -/
theorem c3_pagination_amended_w :
    searchBody envRec theUrls 1 "t" 0 []
      = ((searchBody envRec theUrls 0 "t" 1 []).1, none) :=
  (c3_pagination_amended envRec theUrls 0 "t" 0 [] pageRec).2.2.2
    (pyFormat ("https://ygg.ee" ++ "/engine/search?\x7b\x7d")
      (pyUrlencode envRec (buildUrlParams envRec "t" 0))) [] (by rfl) rfl (by rfl)
